import Mathlib

/-!
# Steady-state binding equilibria: verification of the site's solver code

Shallow embedding of the numerical content of the repository:

* `posts/dimerization-kinetics/index.ipynb` — solves the monomer–dimer
  steady state `2 P1 ⇌ P2` with sympy.  The sympy call
  `sp.solve([-2*k_on*P1*P1 + 2*k_off*P2, P1 + 2*P2 - PT, (k_off/k_on) - kD], ...)`
  (all symbols positive) returns the single closed-form solution
  `P1 = (sqrt(kD)*sqrt(8*PT + kD) - kD)/4`,
  `P2 = PT/2 - sqrt(kD)*sqrt(8*PT + kD)/8 + kD/8`,
  which the notebook then lambdifies into the numeric functions applied
  below.  The fraction sweep of cell 16 evaluates these lambdas on
  `np.logspace(-1, 3, endpoint=True, num=100)` at `kD = 1` and divides by
  `ld_total = P1 + P2`.

* the "Dissociation constant from single-molecule experiments" post —
  computes `th_P = 1/(r + 1)` and `th_PL = 1 - th_P` for
  `r = L0/Kd = np.logspace(-2, 2, 100)`.

The embedding is over exact reals (`ℝ`, `Real.sqrt`); the floating-point
tolerances quoted by the specification are subsumed by exact equalities.
-/

noncomputable section

namespace BindingKinetics

/-- Monomer steady-state concentration: the notebook's `sol[0][P1]`,
`(sqrt(k_D)*sqrt(8*P_T + k_D) - k_D)/4`, lambdified in cell 11. -/
def monomer (P_T k_D : ℝ) : ℝ :=
  (Real.sqrt k_D * Real.sqrt (8 * P_T + k_D) - k_D) / 4

/-- Dimer steady-state concentration: the notebook's `sol[0][P2]`,
`P_T/2 - sqrt(k_D)*sqrt(8*P_T + k_D)/8 + k_D/8`, lambdified in cell 11. -/
def dimer (P_T k_D : ℝ) : ℝ :=
  P_T / 2 - Real.sqrt k_D * Real.sqrt (8 * P_T + k_D) / 8 + k_D / 8

/-- The pair of lambdified solutions, evaluated at a total protomer
concentration and a dissociation constant (the notebook's
`{k: ld(PT.value, kD.value) for k, ld in lambdas.items()}`). -/
def solve_dimer (P_T k_D : ℝ) : ℝ × ℝ := (monomer P_T k_D, dimer P_T k_D)

/-- Fraction of apo protein, `th_P = 1 / (r + 1)` from the smFRET post,
where `r = L0/Kd`. -/
def th_P (r : ℝ) : ℝ := 1 / (r + 1)

/-- Fraction of complexed protein, `th_PL = 1 - th_P`. -/
def th_PL (r : ℝ) : ℝ := 1 - th_P r

/-- Hetero binding solver: ligand concentration and dissociation constant
in, `(free_fraction, bound_fraction)` out, via the ratio `r = L0/k_D`
exactly as the smFRET post computes `th_P` and `th_PL`. -/
def solve_hetero_binding (L0 k_D : ℝ) : ℝ × ℝ :=
  (th_P (L0 / k_D), th_PL (L0 / k_D))

/-- `np.logspace a b num` with `endpoint=True`: `num` samples
`10^(a + (b-a)*i/(num-1))` for `i = 0, …, num-1`. -/
def logspace (a b : ℝ) (num : ℕ) : List ℝ :=
  (List.range num).map
    (fun i : ℕ => (10 : ℝ) ^ (a + (b - a) * (i : ℝ) / ((num : ℝ) - 1)))

/-- Monomer fraction `P1/(P1 + P2)` (cell 16: `ld(PT, 1)/ld_total(PT, 1)`). -/
def monomer_fraction (P_T k_D : ℝ) : ℝ :=
  monomer P_T k_D / (monomer P_T k_D + dimer P_T k_D)

/-- Dimer fraction `P2/(P1 + P2)` (cell 16). -/
def dimer_fraction (P_T k_D : ℝ) : ℝ :=
  dimer P_T k_D / (monomer P_T k_D + dimer P_T k_D)

/-- Cell 16's sweep: evaluate the monomer and dimer fractions on a
log-spaced grid of total concentrations, producing
`(P_T, monomer fraction, dimer fraction)` triples ordered as generated. -/
def sweep_dimer (k_D a b : ℝ) (num : ℕ) : List (ℝ × ℝ × ℝ) :=
  (logspace a b num).map
    (fun PT => (PT, monomer_fraction PT k_D, dimer_fraction PT k_D))

/-! ## Basic facts about the square-root term -/

/-- Abbreviation for the recurring product `sqrt(k_D) * sqrt(8*P_T + k_D)`. -/
def sqrtTerm (P_T k_D : ℝ) : ℝ := Real.sqrt k_D * Real.sqrt (8 * P_T + k_D)

lemma sqrtTerm_nonneg (P_T k_D : ℝ) : 0 ≤ sqrtTerm P_T k_D :=
  mul_nonneg (Real.sqrt_nonneg _) (Real.sqrt_nonneg _)

lemma sqrtTerm_sq (P_T k_D : ℝ) (hP : 0 ≤ P_T) (hk : 0 ≤ k_D) :
    sqrtTerm P_T k_D ^ 2 = k_D * (8 * P_T + k_D) := by
  have h8 : (0:ℝ) ≤ 8 * P_T + k_D := by linarith
  rw [sqrtTerm, mul_pow, Real.sq_sqrt hk, Real.sq_sqrt h8]

lemma sqrtTerm_ge (P_T k_D : ℝ) (hP : 0 ≤ P_T) (hk : 0 ≤ k_D) :
    k_D ≤ sqrtTerm P_T k_D := by
  nlinarith [sqrtTerm_sq P_T k_D hP hk, sqrtTerm_nonneg P_T k_D]

lemma sqrtTerm_le (P_T k_D : ℝ) (hP : 0 ≤ P_T) (hk : 0 ≤ k_D) :
    sqrtTerm P_T k_D ≤ 4 * P_T + k_D := by
  nlinarith [sqrtTerm_sq P_T k_D hP hk, sqrtTerm_nonneg P_T k_D]

lemma monomer_eq (P_T k_D : ℝ) : monomer P_T k_D = (sqrtTerm P_T k_D - k_D) / 4 := rfl

lemma dimer_eq (P_T k_D : ℝ) :
    dimer P_T k_D = P_T / 2 - sqrtTerm P_T k_D / 8 + k_D / 8 := rfl

/-! ## C1: closed form, non-negativity, mass balance -/

/-- C1: for positive total concentration and dissociation constant,
`solve_dimer` returns exactly the closed forms
`monomer = (sqrt(k_D)*sqrt(8*P_T + k_D) - k_D)/4` and
`dimer = P_T/2 - sqrt(k_D)*sqrt(8*P_T + k_D)/8 + k_D/8`; both outputs are
non-negative and they satisfy the mass balance
`monomer + 2*dimer = P_T` exactly over the reals. -/
theorem solve_dimer_closed_form_mass_balance (P_T k_D : ℝ)
    (hP : 0 < P_T) (hk : 0 < k_D) :
    (solve_dimer P_T k_D).1
        = (Real.sqrt k_D * Real.sqrt (8 * P_T + k_D) - k_D) / 4 ∧
    (solve_dimer P_T k_D).2
        = P_T / 2 - Real.sqrt k_D * Real.sqrt (8 * P_T + k_D) / 8 + k_D / 8 ∧
    0 ≤ (solve_dimer P_T k_D).1 ∧ 0 ≤ (solve_dimer P_T k_D).2 ∧
    (solve_dimer P_T k_D).1 + 2 * (solve_dimer P_T k_D).2 = P_T := by
  have hP' := hP.le
  have hk' := hk.le
  have hge := sqrtTerm_ge P_T k_D hP' hk'
  have hle := sqrtTerm_le P_T k_D hP' hk'
  refine ⟨rfl, rfl, ?_, ?_, ?_⟩
  · show 0 ≤ monomer P_T k_D
    rw [monomer_eq]; linarith
  · show 0 ≤ dimer P_T k_D
    rw [dimer_eq]; linarith
  · show monomer P_T k_D + 2 * dimer P_T k_D = P_T
    rw [monomer_eq, dimer_eq]; ring

/-- Witness for C1 at `P_T = 10`, `k_D = 1`. -/
theorem solve_dimer_closed_form_mass_balance_witness :
    (0:ℝ) < 10 ∧ (0:ℝ) < 1 ∧
    ((solve_dimer 10 1).1
        = (Real.sqrt 1 * Real.sqrt (8 * 10 + 1) - 1) / 4 ∧
     (solve_dimer 10 1).2
        = 10 / 2 - Real.sqrt 1 * Real.sqrt (8 * 10 + 1) / 8 + 1 / 8 ∧
     0 ≤ (solve_dimer 10 1).1 ∧ 0 ≤ (solve_dimer 10 1).2 ∧
     (solve_dimer 10 1).1 + 2 * (solve_dimer 10 1).2 = 10) :=
  ⟨by norm_num, by norm_num,
    solve_dimer_closed_form_mass_balance 10 1 (by norm_num) (by norm_num)⟩

/-! ## C2: equilibrium relation (positive root) -/

/-- C2: the returned pair satisfies the steady-state equilibrium relation
`k_D * dimer = monomer²` (equivalently `k_off*dimer = k_on*monomer²` with
`k_D = k_off/k_on`): the solution is the positive root of the quadratic
system. -/
theorem solve_dimer_equilibrium (P_T k_D : ℝ) (hP : 0 < P_T) (hk : 0 < k_D) :
    k_D * (solve_dimer P_T k_D).2 = ((solve_dimer P_T k_D).1) ^ 2 := by
  have hsq := sqrtTerm_sq P_T k_D hP.le hk.le
  show k_D * dimer P_T k_D = monomer P_T k_D ^ 2
  rw [monomer_eq, dimer_eq]
  nlinarith [hsq]

/-- Witness for C2 at `P_T = 10`, `k_D = 1`. -/
theorem solve_dimer_equilibrium_witness :
    (0:ℝ) < 10 ∧ (0:ℝ) < 1 ∧
    (1:ℝ) * (solve_dimer 10 1).2 = ((solve_dimer 10 1).1) ^ 2 :=
  ⟨by norm_num, by norm_num,
    solve_dimer_equilibrium 10 1 (by norm_num) (by norm_num)⟩

/-! ## C3: the concrete scenario `solve_dimer 10 1` -/

lemma sqrt_eightyone : Real.sqrt (8 * 10 + 1 : ℝ) = 9 := by
  rw [show (8 * 10 + 1 : ℝ) = 9 ^ 2 by norm_num]
  exact Real.sqrt_sq (by norm_num)

lemma solve_dimer_ten_one : solve_dimer 10 1 = (2, 4) := by
  unfold solve_dimer monomer dimer
  rw [sqrt_eightyone, Real.sqrt_one]
  norm_num

/-- C3 counterexample: `solve_dimer 10 1` returns monomer `2`, not
`≈ 2.70` — the monomer value differs from the claimed one by `0.7`,
far beyond any reading of `≈` (similarly the dimer is `4`, not
`≈ 3.65`). -/
theorem solve_dimer_ten_one_not_approx :
    (solve_dimer 10 1).1 = 2 ∧ (solve_dimer 10 1).2 = 4 ∧
    ¬ |(solve_dimer 10 1).1 - 2.70| < 0.5 ∧
    ¬ |(solve_dimer 10 1).2 - 3.65| < 0.3 := by
  have hm : (solve_dimer 10 1).1 = 2 := congrArg Prod.fst solve_dimer_ten_one
  have hd : (solve_dimer 10 1).2 = 4 := congrArg Prod.snd solve_dimer_ten_one
  refine ⟨hm, hd, ?_, ?_⟩
  · rw [hm, abs_lt]
    push_neg
    intro h
    norm_num at h
  · rw [hd, abs_lt]
    push_neg
    intro h
    norm_num

/-- C3 amended: `solve_dimer(total_concentration=10, dissociation_constant=1)`
returns exactly `monomer = 2` and `dimer = 4`, satisfying
`2 + 2*4 = 10` (and the monomer fraction is `1/3`, matching the
notebook's "one out of three species is still a monomer"). -/
theorem solve_dimer_ten_one_value :
    solve_dimer 10 1 = (2, 4) ∧
    (solve_dimer 10 1).1 + 2 * (solve_dimer 10 1).2 = 10 ∧
    monomer_fraction 10 1 = 1 / 3 := by
  have h := solve_dimer_ten_one
  have hm : monomer 10 1 = 2 := congrArg Prod.fst h
  have hd : dimer 10 1 = 4 := congrArg Prod.snd h
  refine ⟨h, ?_, ?_⟩
  · rw [h]; norm_num
  · rw [monomer_fraction, hm, hd]; norm_num

/-! ## C10: at `P_T = k_D` the monomer is twice the dimer -/

lemma sqrt_nine_kD (k_D : ℝ) (hk : 0 ≤ k_D) :
    Real.sqrt k_D * Real.sqrt (8 * k_D + k_D) = 3 * k_D := by
  rw [show 8 * k_D + k_D = 9 * k_D by ring, Real.sqrt_mul (by norm_num) k_D,
    show (9:ℝ) = 3 ^ 2 by norm_num, Real.sqrt_sq (by norm_num)]
  rw [mul_comm (Real.sqrt k_D), mul_assoc, Real.mul_self_sqrt hk]

/-- C10: for `total_concentration = dissociation_constant`, the solution is
`monomer = k_D/2`, `dimer = k_D/4`, so `monomer = 2 * dimer` and the
monomer fraction `monomer/(monomer + dimer)` is exactly `2/3`. -/
theorem solve_dimer_at_kD (k_D : ℝ) (hk : 0 < k_D) :
    (solve_dimer k_D k_D).1 = 2 * (solve_dimer k_D k_D).2 ∧
    monomer_fraction k_D k_D = 2 / 3 := by
  have hs := sqrt_nine_kD k_D hk.le
  have hm : monomer k_D k_D = k_D / 2 := by rw [monomer, hs]; ring
  have hd : dimer k_D k_D = k_D / 4 := by rw [dimer, hs]; ring
  constructor
  · show monomer k_D k_D = 2 * dimer k_D k_D
    rw [hm, hd]; ring
  · rw [monomer_fraction, hm, hd]
    rw [show k_D / 2 + k_D / 4 = 3 / 4 * k_D by ring]
    rw [div_eq_iff (by positivity)]
    ring

/-- Witness for C10 at `k_D = 1`. -/
theorem solve_dimer_at_kD_witness :
    (0:ℝ) < 1 ∧
    ((solve_dimer 1 1).1 = 2 * (solve_dimer 1 1).2 ∧
     monomer_fraction 1 1 = 2 / 3) :=
  ⟨by norm_num, solve_dimer_at_kD 1 (by norm_num)⟩

/-! ## C4: the code performs no input validation -/

/-- C4 counterexample: the lambdified solver has no validation path — at the
invalid input `dissociation_constant = 0` it does not fail but returns the
well-defined value `(0, 5)` for `total_concentration = 10` (numpy computes
`sqrt(0) = 0` and carries on); no `InvalidInput` error exists anywhere in
the code. -/
theorem solve_dimer_zero_kD_returns :
    solve_dimer 10 0 = (0, 5) := by
  unfold solve_dimer monomer dimer
  rw [Real.sqrt_zero]
  norm_num

/-- C4 amended: neither solver validates its inputs; both are total
functions that silently return values on non-positive inputs instead of
raising `InvalidInput`.  In particular `solve_dimer P_T 0 = (0, P_T/2)`
for every `P_T`, and `solve_hetero_binding 0 k_D = (1, 0)` for every
`k_D`. -/
theorem solve_dimer_no_validation (P_T k_D : ℝ) :
    solve_dimer P_T 0 = (0, P_T / 2) ∧
    solve_hetero_binding 0 k_D = (1, 0) := by
  constructor
  · unfold solve_dimer monomer dimer
    rw [Real.sqrt_zero]
    norm_num
  · unfold solve_hetero_binding th_PL th_P
    norm_num

/-! ## C5: hetero-binding fractions -/

/-- C5: for positive ligand concentration and dissociation constant, the
free fraction is exactly `1/(L0/k_D + 1)`, the bound fraction is exactly
its complement, the two sum to `1` exactly, and both lie strictly inside
`(0, 1)`. -/
theorem solve_hetero_binding_correct (L0 k_D : ℝ) (hL : 0 < L0) (hk : 0 < k_D) :
    (solve_hetero_binding L0 k_D).1 = 1 / (L0 / k_D + 1) ∧
    (solve_hetero_binding L0 k_D).2 = 1 - (solve_hetero_binding L0 k_D).1 ∧
    (solve_hetero_binding L0 k_D).1 + (solve_hetero_binding L0 k_D).2 = 1 ∧
    (0 < (solve_hetero_binding L0 k_D).1 ∧ (solve_hetero_binding L0 k_D).1 < 1) ∧
    (0 < (solve_hetero_binding L0 k_D).2 ∧ (solve_hetero_binding L0 k_D).2 < 1) := by
  have hr : 0 < L0 / k_D := div_pos hL hk
  have hr1 : 0 < L0 / k_D + 1 := by linarith
  have hfree_pos : 0 < th_P (L0 / k_D) := by
    rw [th_P]; positivity
  have hfree_lt : th_P (L0 / k_D) < 1 := by
    rw [th_P, div_lt_one hr1]; linarith
  refine ⟨rfl, rfl, ?_, ⟨hfree_pos, hfree_lt⟩, ?_⟩
  · show th_P (L0 / k_D) + th_PL (L0 / k_D) = 1
    rw [th_PL]; ring
  · constructor
    · show 0 < th_PL (L0 / k_D)
      rw [th_PL]; linarith
    · show th_PL (L0 / k_D) < 1
      rw [th_PL]; linarith

/-- Witness for C5 at `L0 = 2`, `k_D = 1`. -/
theorem solve_hetero_binding_correct_witness :
    (0:ℝ) < 2 ∧ (0:ℝ) < 1 ∧
    ((solve_hetero_binding 2 1).1 = 1 / (2 / 1 + 1) ∧
     (solve_hetero_binding 2 1).2 = 1 - (solve_hetero_binding 2 1).1 ∧
     (solve_hetero_binding 2 1).1 + (solve_hetero_binding 2 1).2 = 1 ∧
     (0 < (solve_hetero_binding 2 1).1 ∧ (solve_hetero_binding 2 1).1 < 1) ∧
     (0 < (solve_hetero_binding 2 1).2 ∧ (solve_hetero_binding 2 1).2 < 1)) :=
  ⟨by norm_num, by norm_num,
    solve_hetero_binding_correct 2 1 (by norm_num) (by norm_num)⟩

/-! ## C6: free fraction strictly decreases in the ligand concentration -/

/-- C6: holding the dissociation constant fixed, the free fraction returned
by `solve_hetero_binding` is strictly decreasing in the ligand
concentration: `0 < L1 < L2` gives a strictly smaller free fraction at
`L2`. -/
theorem free_fraction_strict_anti (k_D L1 L2 : ℝ)
    (hk : 0 < k_D) (h1 : 0 < L1) (h12 : L1 < L2) :
    (solve_hetero_binding L2 k_D).1 < (solve_hetero_binding L1 k_D).1 := by
  show th_P (L2 / k_D) < th_P (L1 / k_D)
  rw [th_P, th_P]
  have hr1 : 0 < L1 / k_D := div_pos h1 hk
  have hrr : L1 / k_D < L2 / k_D := by
    rw [div_lt_div_iff₀ hk hk]
    nlinarith
  apply one_div_lt_one_div_of_lt <;> linarith

/-- Witness for C6 at `k_D = 1`, `L1 = 1`, `L2 = 2`. -/
theorem free_fraction_strict_anti_witness :
    (0:ℝ) < 1 ∧ (0:ℝ) < 1 ∧ (1:ℝ) < 2 ∧
    (solve_hetero_binding 2 1).1 < (solve_hetero_binding 1 1).1 :=
  ⟨by norm_num, by norm_num, by norm_num,
    free_fraction_strict_anti 1 1 2 (by norm_num) (by norm_num) (by norm_num)⟩

/-! ## C7: half saturation at `L0 = k_D` -/

/-- C7: at ligand concentration equal to the dissociation constant the
ratio is `1`, so both fractions are exactly one half. -/
theorem solve_hetero_binding_half (k_D : ℝ) (hk : 0 < k_D) :
    solve_hetero_binding k_D k_D = (1 / 2, 1 / 2) := by
  unfold solve_hetero_binding th_PL th_P
  rw [div_self hk.ne']
  norm_num

/-- Witness for C7 at `k_D = 3`. -/
theorem solve_hetero_binding_half_witness :
    (0:ℝ) < 3 ∧ solve_hetero_binding 3 3 = (1 / 2, 1 / 2) :=
  ⟨by norm_num, solve_hetero_binding_half 3 (by norm_num)⟩

/-! ## C8: the concrete sweep of cell 16 -/

lemma logspace_length (a b : ℝ) (num : ℕ) : (logspace a b num).length = num := by
  simp [logspace]

lemma rpow_neg_one_ten : (10 : ℝ) ^ (-1 : ℝ) = 1 / 10 := by
  rw [show (-1:ℝ) = -(1:ℝ) from rfl, Real.rpow_neg (by norm_num), Real.rpow_one]
  norm_num

lemma rpow_three_ten : (10 : ℝ) ^ (3 : ℝ) = 1000 := by
  rw [show (3:ℝ) = ((3:ℕ):ℝ) by norm_num, Real.rpow_natCast]
  norm_num

lemma logspace_head :
    (logspace (-1) 3 100).head? = some (1 / 10) := by
  rw [logspace, List.head?_map,
    show (100:ℕ) = 99 + 1 from rfl, List.range_succ_eq_map]
  simp only [List.head?_cons, Option.map_some']
  rw [show (-1 : ℝ) + (3 - -1) * ((0:ℕ) : ℝ) / (((99 + 1 : ℕ) : ℝ) - 1) = -1 by
    norm_num]
  rw [rpow_neg_one_ten]

lemma logspace_getLast :
    (logspace (-1) 3 100).getLast? = some 1000 := by
  rw [logspace, show (100:ℕ) = 99 + 1 from rfl, List.range_succ, List.map_append,
    List.map_singleton, List.getLast?_concat]
  rw [show (-1 : ℝ) + (3 - -1) * ((99:ℕ) : ℝ) / (((99 + 1 : ℕ) : ℝ) - 1) = 3 by
    norm_num]
  rw [rpow_three_ten]

/-- First sample of the sweep: the monomer fraction at `P_T = 0.1`,
`k_D = 1` is within `0.001` of `0.921`. -/
lemma first_monomer_fraction_bound :
    |monomer_fraction (1 / 10) 1 - 0.921| < 0.001 := by
  unfold monomer_fraction monomer dimer
  rw [Real.sqrt_one, one_mul]
  set s := Real.sqrt (8 * (1 / 10) + 1) with hs_def
  have hsq : s ^ 2 = 9 / 5 := by
    rw [hs_def, Real.sq_sqrt (by norm_num : (0:ℝ) ≤ 8 * (1 / 10) + 1)]
    norm_num
  have hs0 : 0 ≤ s := Real.sqrt_nonneg _
  have hlb : (1.3416 : ℝ) < s := by nlinarith
  have hub : s < 1.3417 := by nlinarith
  have hden : (0:ℝ) < (s - 1) / 4 + (1 / 10 / 2 - s / 8 + 1 / 8) := by linarith
  rw [abs_lt]
  constructor
  · have h : (0.920 : ℝ) < (s - 1) / 4 / ((s - 1) / 4 + (1 / 10 / 2 - s / 8 + 1 / 8)) := by
      rw [lt_div_iff₀ hden]; linarith
    linarith
  · have h : (s - 1) / 4 / ((s - 1) / 4 + (1 / 10 / 2 - s / 8 + 1 / 8)) < 0.922 := by
      rw [div_lt_iff₀ hden]; linarith
    linarith

/-- Last sample of the sweep: the dimer fraction at `P_T = 1000`,
`k_D = 1` is within `0.001` of `0.957`. -/
lemma last_dimer_fraction_bound :
    |dimer_fraction 1000 1 - 0.957| < 0.001 := by
  unfold dimer_fraction monomer dimer
  rw [Real.sqrt_one, one_mul]
  set s := Real.sqrt (8 * 1000 + 1) with hs_def
  have hsq : s ^ 2 = 8001 := by
    rw [hs_def, Real.sq_sqrt (by norm_num : (0:ℝ) ≤ 8 * 1000 + 1)]
    norm_num
  have hs0 : 0 ≤ s := Real.sqrt_nonneg _
  have hlb : (89.448 : ℝ) < s := by nlinarith
  have hub : s < 89.449 := by nlinarith
  have hden : (0:ℝ) < (s - 1) / 4 + (1000 / 2 - s / 8 + 1 / 8) := by linarith
  rw [abs_lt]
  constructor
  · have h : (0.956 : ℝ) <
        (1000 / 2 - s / 8 + 1 / 8) / ((s - 1) / 4 + (1000 / 2 - s / 8 + 1 / 8)) := by
      rw [lt_div_iff₀ hden]; linarith
    linarith
  · have h : (1000 / 2 - s / 8 + 1 / 8) / ((s - 1) / 4 + (1000 / 2 - s / 8 + 1 / 8))
        < 0.958 := by
      rw [div_lt_iff₀ hden]; linarith
    linarith

/-- C8: the cell-16 sweep (`np.logspace(-1, 3, num=100)`, `k_D = 1`)
produces 100 samples; its first sample sits at `P_T = 0.1` with monomer
fraction within `0.001` of `0.921`, and its last sample sits at
`P_T = 1000` with dimer fraction within `0.001` of `0.957`. -/
theorem sweep_dimer_scenario :
    (sweep_dimer 1 (-1) 3 100).length = 100 ∧
    (sweep_dimer 1 (-1) 3 100).head?
      = some (1 / 10, monomer_fraction (1 / 10) 1, dimer_fraction (1 / 10) 1) ∧
    |monomer_fraction (1 / 10) 1 - 0.921| < 0.001 ∧
    (sweep_dimer 1 (-1) 3 100).getLast?
      = some (1000, monomer_fraction 1000 1, dimer_fraction 1000 1) ∧
    |dimer_fraction 1000 1 - 0.957| < 0.001 := by
  refine ⟨?_, ?_, first_monomer_fraction_bound, ?_, last_dimer_fraction_bound⟩
  · simp [sweep_dimer, logspace]
  · rw [sweep_dimer, List.head?_map, logspace_head]
    rfl
  · rw [sweep_dimer, List.getLast?_map, logspace_getLast]
    rfl

/-! ## C9: determinism and ascending order of the sweeps, both models -/

/-- The smFRET post's hetero-binding series: `r = np.logspace(a, b, num)`
(the post uses `np.logspace(-2, 2, 100)`), each sample carrying
`(r, th_P r, th_PL r)` — the columns `'L0/kd'`, `'P'`, `'PL'` of its
DataFrame. -/
def sweep_hetero (a b : ℝ) (num : ℕ) : List (ℝ × ℝ × ℝ) :=
  (logspace a b num).map (fun r => (r, th_P r, th_PL r))

/-- A log-spaced grid with `a < b` is strictly increasing. -/
lemma logspace_pairwise_lt (a b : ℝ) (num : ℕ) (hab : a < b) :
    (logspace a b num).Pairwise (· < ·) := by
  rw [logspace, List.pairwise_map]
  refine List.Pairwise.imp_of_mem ?_ (List.pairwise_lt_range num)
  intro i j hi hj hij
  have hjn : j < num := List.mem_range.mp hj
  have hnum : (2:ℕ) ≤ num := by omega
  have hD : (0:ℝ) < (num : ℝ) - 1 := by
    have : (2:ℝ) ≤ (num : ℝ) := by exact_mod_cast hnum
    linarith
  show (10:ℝ) ^ (a + (b - a) * (i:ℝ) / ((num:ℝ) - 1))
      < (10:ℝ) ^ (a + (b - a) * (j:ℝ) / ((num:ℝ) - 1))
  apply (Real.rpow_lt_rpow_left_iff (by norm_num : (1:ℝ) < 10)).mpr
  have hij' : (i:ℝ) < (j:ℝ) := by exact_mod_cast hij
  have hba : (0:ℝ) < b - a := by linarith
  have hmul : (b - a) * (i:ℝ) < (b - a) * (j:ℝ) := by nlinarith
  refine add_lt_add_left ?_ a
  rw [div_lt_div_iff₀ hD hD]
  nlinarith

/-- C9: for either reaction model, the sweep is a pure function — two
invocations on the same input tuple yield the same series — and (for any
exponent range `a < b`) the series' x values are strictly ascending: both
the dimer-model series and the hetero-model series are pairwise ordered
by `<` on the first component. -/
theorem sweep_deterministic_ascending (k_D a b : ℝ) (num : ℕ)
    (hab : a < b) :
    (sweep_dimer k_D a b num = sweep_dimer k_D a b num ∧
     (sweep_dimer k_D a b num).Pairwise (fun p q => p.1 < q.1)) ∧
    (sweep_hetero a b num = sweep_hetero a b num ∧
     (sweep_hetero a b num).Pairwise (fun p q => p.1 < q.1)) := by
  refine ⟨⟨rfl, ?_⟩, ⟨rfl, ?_⟩⟩
  · rw [sweep_dimer, List.pairwise_map]
    exact (logspace_pairwise_lt a b num hab).imp (fun h => h)
  · rw [sweep_hetero, List.pairwise_map]
    exact (logspace_pairwise_lt a b num hab).imp (fun h => h)

/-- Witness for C9 at the parameters the code actually uses: the dimer
sweep's `k_D = 1`, exponents `-1 < 3`, `num = 100` (cell 16), and the
hetero series' exponents `-2 < 2`, `num = 100` (the smFRET post). -/
theorem sweep_deterministic_ascending_witness :
    (-1:ℝ) < 3 ∧ (-2:ℝ) < 2 ∧
    ((sweep_dimer 1 (-1) 3 100 = sweep_dimer 1 (-1) 3 100 ∧
      (sweep_dimer 1 (-1) 3 100).Pairwise (fun p q => p.1 < q.1)) ∧
     (sweep_hetero (-1) 3 100 = sweep_hetero (-1) 3 100 ∧
      (sweep_hetero (-1) 3 100).Pairwise (fun p q => p.1 < q.1))) ∧
    ((sweep_dimer 1 (-2) 2 100 = sweep_dimer 1 (-2) 2 100 ∧
      (sweep_dimer 1 (-2) 2 100).Pairwise (fun p q => p.1 < q.1)) ∧
     (sweep_hetero (-2) 2 100 = sweep_hetero (-2) 2 100 ∧
      (sweep_hetero (-2) 2 100).Pairwise (fun p q => p.1 < q.1))) :=
  ⟨by norm_num, by norm_num,
    sweep_deterministic_ascending 1 (-1) 3 100 (by norm_num),
    sweep_deterministic_ascending 1 (-2) 2 100 (by norm_num)⟩

end BindingKinetics
